import Mathlib

/-!
# Verification of the mern-library-management backend (src/backend/index.js)

The backend is a thin Express + MongoDB CRUD service over one collection
("books").  This file gives a shallow embedding of the five route handlers
and of the storage operations they consume, and proves the testable
properties claimed by the specification.

The MongoDB driver itself is an external library whose code is not part of
this repository; its collection operations (`insertOne`, `find`, `findOne`,
`updateOne` with upsert, `deleteOne`) are modelled from the specification's
storage-adapter contract (spec §3, §4.2, glossary): the record identifier is
an opaque unique id generated by the storage layer on insert, a filter is a
field-equality predicate, find returns documents in the collection's natural
(insertion) order, and update-one with upsert creates a document from the
filter's id and the partial document when nothing matches.
-/

set_option autoImplicit false

/-- A JSON scalar value as produced by `express.json()` body parsing.
Nested arrays/objects never influence the verified properties (the only
filters built by the handlers compare scalar equality), so values are
modelled by this inductive with decidable equality. -/
inductive JValue where
  | str : String → JValue
  | num : Int → JValue
  | bool : Bool → JValue
  | null : JValue
deriving DecidableEq, Repr

/-- A JSON document: an association list of fields, first binding wins
(parsed JavaScript objects have unique keys). -/
abbrev Doc := List (String × JValue)

/-- Field lookup in a document (first binding of the key). -/
def getField (d : Doc) (k : String) : Option JValue :=
  match d with
  | [] => none
  | (k', v) :: rest => if k' = k then some v else getField rest k

/-- `$set` of a single field: overwrite the field in place if present,
append it otherwise (MongoDB `$set` semantics on a flat document). -/
def setField (d : Doc) (k : String) (v : JValue) : Doc :=
  match d with
  | [] => [(k, v)]
  | (k', v') :: rest => if k' = k then (k', v) :: rest else (k', v') :: setField rest k v

/-- Apply a `$set` partial document: each field of `body` overwrites the
corresponding field of `d`, all other fields of `d` are untouched. -/
def applySet (d : Doc) (body : Doc) : Doc :=
  body.foldl (fun acc kv => setField acc kv.1 kv.2) d

/-- A character is a hexadecimal digit (the character class accepted by the
driver's ObjectId parser). -/
def isHexDigitChar (c : Char) : Bool :=
  c.isDigit || ('a' ≤ c && c ≤ 'f') || ('A' ≤ c && c ≤ 'F')

/-- Canonical (lower-case) form of a hexadecimal digit; ObjectId equality is
on the underlying bytes, so parsing normalises the case. -/
def canonChar (c : Char) : Char :=
  if 'A' ≤ c && c ≤ 'F' then Char.ofNat (c.toNat + 32) else c

/-- `new ObjectId(id)` on a path-parameter string: accepts exactly the
24-character hexadecimal strings (the storage layer's expected id format,
spec §7) and yields the canonical id; anything else throws. -/
def parseObjectId (s : String) : Option String :=
  if s.data.length = 24 && s.data.all isHexDigitChar then
    some (String.mk (s.data.map canonChar))
  else
    none

/-- The `k`-th hexadecimal digit character (`k < 16`). -/
def hexChar (k : Nat) : Char :=
  if k < 10 then Char.ofNat (48 + k) else Char.ofNat (87 + k)

/-- Modelled from the spec: the id "generated by the storage layer on
insert" (spec §3).  The driver generates a fresh 24-hex-character ObjectId;
here the `n`-th generated id is `n` written as 24 hexadecimal digits. -/
def genOid (n : Nat) : String :=
  String.mk ((List.range 24).map (fun i => hexChar (n / 16 ^ (23 - i) % 16)))

/-- A stored document: the storage-layer identifier together with the
client-supplied fields (stored verbatim, spec §3). -/
structure StoredDoc where
  oid : String
  fields : Doc
deriving DecidableEq, Repr

/-- The "books" collection: its documents in natural (insertion) order,
plus the generation counter for fresh ids. -/
structure Collection where
  docs : List StoredDoc
  nextId : Nat
deriving DecidableEq, Repr

/-- Well-formed collection state: storage-layer ids are unique across all
records (spec §3 invariant). -/
def Collection.WF (c : Collection) : Prop :=
  (c.docs.map StoredDoc.oid).Nodup

/-- Result record of `insertOne`. -/
structure InsertOneResult where
  acknowledged : Bool
  insertedId : String
deriving DecidableEq, Repr

/-- Result record of `updateOne`. -/
structure UpdateResult where
  acknowledged : Bool
  matchedCount : Nat
  modifiedCount : Nat
  upsertedId : Option String
deriving DecidableEq, Repr

/-- Result record of `deleteOne`. -/
structure DeleteResult where
  acknowledged : Bool
  deletedCount : Nat
deriving DecidableEq, Repr

/-- The error thrown by `new ObjectId(id)` on a malformed id; it rejects the
handler's promise before any storage operation runs. -/
inductive BSONError where
  | invalidObjectId
deriving DecidableEq, Repr

/-- Modelled from the spec: `insert-one(document) → identifier` (spec §4.2).
The storage layer generates a fresh id, stores the posted fields verbatim
and acknowledges with the generated id. -/
def insertOne (c : Collection) (data : Doc) : Collection × InsertOneResult :=
  (⟨c.docs ++ [⟨genOid c.nextId, data⟩], c.nextId + 1⟩,
   ⟨true, genOid c.nextId⟩)

/-- A document matches a field-equality filter (spec glossary: "a
field-equality predicate used to select documents"). -/
def matchesQuery (fs : List (String × JValue)) (d : Doc) : Bool :=
  fs.all (fun kv => getField d kv.1 == some kv.2)

/-- Modelled from the spec: `find(filter) → sequence of documents`
(spec §4.2), in the collection's natural order. -/
def findDocs (c : Collection) (fs : List (String × JValue)) : List StoredDoc :=
  c.docs.filter (fun sd => matchesQuery fs sd.fields)

/-- First document of a list carrying the given id. -/
def findFirst (l : List StoredDoc) (o : String) : Option StoredDoc :=
  match l with
  | [] => none
  | sd :: rest => if sd.oid = o then some sd else findFirst rest o

/-- Modelled from the spec: `find-one(filter) → document or absence`
(spec §4.2), for the id filter `{_id: o}` built by the handlers. -/
def findOne (c : Collection) (o : String) : Option StoredDoc :=
  findFirst c.docs o

/-- Replace the fields of the first document carrying id `o` by the `$set`
of `body` over them; `none` when no document matches. -/
def updateFirst (l : List StoredDoc) (o : String) (body : Doc) :
    Option (List StoredDoc) :=
  match l with
  | [] => none
  | sd :: rest =>
    if sd.oid = o then some (⟨sd.oid, applySet sd.fields body⟩ :: rest)
    else (updateFirst rest o body).map (sd :: ·)

/-- Remove the first document carrying id `o`; `none` when no document
matches. -/
def deleteFirst (l : List StoredDoc) (o : String) : Option (List StoredDoc) :=
  match l with
  | [] => none
  | sd :: rest =>
    if sd.oid = o then some rest
    else (deleteFirst rest o).map (sd :: ·)

/-- Modelled from the spec: `update-one(filter, partial-document,
upsert=true) → match/modify counts` (spec §4.2).  The fields present in the
body overwrite those of the matching document; when nothing matches, a new
document with the filter's id and the body's fields is created (upsert,
spec §4.1 and glossary). -/
def updateOne (c : Collection) (o : String) (body : Doc) :
    Collection × UpdateResult :=
  match updateFirst c.docs o body with
  | some l' =>
    (⟨l', c.nextId⟩, ⟨true, 1, if l' = c.docs then 0 else 1, none⟩)
  | none =>
    (⟨c.docs ++ [⟨o, applySet [] body⟩], c.nextId⟩, ⟨true, 0, 0, some o⟩)

/-- Modelled from the spec: `delete-one(filter) → delete count` (spec §4.2);
a zero count, not an error, when nothing matches. -/
def deleteOne (c : Collection) (o : String) : Collection × DeleteResult :=
  match deleteFirst c.docs o with
  | some l' => (⟨l', c.nextId⟩, ⟨true, 1⟩)
  | none => (c, ⟨true, 0⟩)

/-- `POST /upload-book`: insert the posted JSON body as a new document. -/
def uploadBook (c : Collection) (body : Doc) : Collection × InsertOneResult :=
  insertOne c body

/-- JavaScript string truthiness, as used by `if (req.query?.category)`:
an absent parameter and the empty string are falsy. -/
def truthy (s : Option String) : Bool :=
  match s with
  | none => false
  | some s => s ≠ ""

/-- `GET /all-books`: when the `category` query parameter is truthy the
query is `{category: X}`, otherwise it stays `{}`; then `find(query)`. -/
def allBooks (c : Collection) (category : Option String) : List StoredDoc :=
  let query : List (String × JValue) :=
    match category with
    | some s => if s ≠ "" then [("category", JValue.str s)] else []
    | none => []
  findDocs c query

/-- `GET /book/:id`: `new ObjectId(id)` (throwing on a malformed id), then
`findOne({_id})`; an absent document is a normal `null` success. -/
def getBook (c : Collection) (id : String) :
    Except BSONError (Option StoredDoc) :=
  match parseObjectId id with
  | none => .error .invalidObjectId
  | some o => .ok (findOne c o)

/-- `PATCH /book/:id`: `new ObjectId(id)` (throwing on a malformed id), then
`updateOne({_id}, {$set: body}, {upsert: true})`. -/
def patchBook (c : Collection) (id : String) (body : Doc) :
    Except BSONError (Collection × UpdateResult) :=
  match parseObjectId id with
  | none => .error .invalidObjectId
  | some o => .ok (updateOne c o body)

/-- `DELETE /book/:id`: `new ObjectId(id)` (throwing on a malformed id),
then `deleteOne({_id})`. -/
def deleteBook (c : Collection) (id : String) :
    Except BSONError (Collection × DeleteResult) :=
  match parseObjectId id with
  | none => .error .invalidObjectId
  | some o => .ok (deleteOne c o)

/-- Collection state after a request whose handler may have thrown: a
request that throws before its storage operation leaves the state as it
was; otherwise the state is the one the storage operation produced. -/
def stateAfter {α : Type} (c : Collection)
    (r : Except BSONError (Collection × α)) : Collection :=
  match r with
  | .ok (c', _) => c'
  | .error _ => c

/-- `const port = process.env.PORT || 5000` (index.js line 59): the
environment variable when it is truthy, the numeric default otherwise. -/
def port (envPORT : Option String) : String ⊕ Nat :=
  match envPORT with
  | some s => if s ≠ "" then Sum.inl s else Sum.inr 5000
  | none => Sum.inr 5000

/-- `const uri = "mongodb://localhost:27017"` (index.js line 66): the
connection string is a hardcoded literal, not read from the environment. -/
def uri : String := "mongodb://localhost:27017"

/-- A 24-hex-character id, in the storage layer's expected format, used in
concrete witness instances. -/
def wOid : String := "aaaaaaaaaaaaaaaaaaaaaaaa"

/-- A second 24-hex-character id used in concrete witness instances. -/
def wOid2 : String := "bbbbbbbbbbbbbbbbbbbbbbbb"

/-- A malformed id (not 24 hexadecimal characters) used in concrete witness
instances. -/
def wBadId : String := "not-a-hex-id"

/-- A one-record collection (one book of category `"x"`) used in concrete
witness instances and counterexamples. -/
def wColl : Collection := ⟨[⟨wOid, [("category", JValue.str "x")]⟩], 0⟩

/-- The empty collection used in concrete witness instances. -/
def wEmpty : Collection := ⟨[], 0⟩

/-! ## Helper lemmas -/

/-- Generated hexadecimal digits are hexadecimal digits. -/
theorem isHexDigitChar_hexChar (k : Nat) (h : k < 16) :
    isHexDigitChar (hexChar k) = true := by
  interval_cases k <;> decide

/-- Generated hexadecimal digits are already canonical (lower case). -/
theorem canonChar_hexChar (k : Nat) (h : k < 16) :
    canonChar (hexChar k) = hexChar k := by
  interval_cases k <;> decide

/-- A generated id is in the storage layer's expected id format: parsing it
back succeeds and returns it unchanged. -/
theorem parseObjectId_genOid (n : Nat) :
    parseObjectId (genOid n) = some (genOid n) := by
  have hmem : ∀ c ∈ (List.range 24).map
      (fun i => hexChar (n / 16 ^ (23 - i) % 16)), ∃ k, k < 16 ∧ c = hexChar k := by
    intro c hc
    rcases List.mem_map.1 hc with ⟨i, _, rfl⟩
    exact ⟨n / 16 ^ (23 - i) % 16, Nat.mod_lt _ (by norm_num), rfl⟩
  unfold parseObjectId genOid
  have hlen : ((List.range 24).map
      (fun i => hexChar (n / 16 ^ (23 - i) % 16))).length = 24 := by simp
  have hall : ((List.range 24).map
      (fun i => hexChar (n / 16 ^ (23 - i) % 16))).all isHexDigitChar = true := by
    rw [List.all_eq_true]
    intro c hc
    rcases hmem c hc with ⟨k, hk, rfl⟩
    exact isHexDigitChar_hexChar k hk
  have hcanon : ((List.range 24).map
      (fun i => hexChar (n / 16 ^ (23 - i) % 16))).map canonChar =
      (List.range 24).map (fun i => hexChar (n / 16 ^ (23 - i) % 16)) := by
    rw [List.map_map]
    apply List.map_congr_left
    intro i _
    exact canonChar_hexChar _ (Nat.mod_lt _ (by norm_num))
  simp only [String.data]
  rw [hlen, hall]
  simp [hcanon]

/-- `findFirst` finds nothing when no document carries the id. -/
theorem findFirst_eq_none (l : List StoredDoc) (o : String)
    (h : ∀ sd ∈ l, sd.oid ≠ o) : findFirst l o = none := by
  induction l with
  | nil => rfl
  | cons sd rest ih =>
    have h1 : sd.oid ≠ o := h sd (List.mem_cons_self sd rest)
    simp only [findFirst, if_neg h1]
    exact ih (fun x hx => h x (List.mem_cons_of_mem sd hx))

/-- A document appended behind non-matching documents is the first match. -/
theorem findFirst_append (l : List StoredDoc) (x : StoredDoc) (o : String)
    (h : ∀ sd ∈ l, sd.oid ≠ o) (hx : x.oid = o) :
    findFirst (l ++ [x]) o = some x := by
  induction l with
  | nil => simp [findFirst, hx]
  | cons sd rest ih =>
    have h1 : sd.oid ≠ o := h sd (List.mem_cons_self sd rest)
    simp only [List.cons_append, findFirst, if_neg h1]
    exact ih (fun y hy => h y (List.mem_cons_of_mem sd hy))

/-- After `$set {f: v}`, the field `f` holds `v`. -/
theorem getField_setField_same (d : Doc) (f : String) (v : JValue) :
    getField (setField d f v) f = some v := by
  induction d with
  | nil => simp [setField, getField]
  | cons kv rest ih =>
    by_cases h : kv.1 = f
    · simp [setField, getField, h]
    · simp [setField, getField, h, ih]

/-- After `$set {f: v}`, every field other than `f` is unchanged. -/
theorem getField_setField_other (d : Doc) (f k : String) (v : JValue)
    (h : k ≠ f) : getField (setField d f v) k = getField d k := by
  have hfk : f ≠ k := Ne.symm h
  induction d with
  | nil => simp [setField, getField, hfk]
  | cons kv rest ih =>
    by_cases h1 : kv.1 = f
    · simp [setField, getField, h1, hfk]
    · by_cases h2 : kv.1 = k
      · simp [setField, getField, h1, h2, hfk, h]
      · simp [setField, getField, h1, h2, ih]

/-- `updateFirst` matches nothing when no document carries the id. -/
theorem updateFirst_eq_none (l : List StoredDoc) (o : String) (b : Doc)
    (h : ∀ sd ∈ l, sd.oid ≠ o) : updateFirst l o b = none := by
  induction l with
  | nil => rfl
  | cons sd rest ih =>
    have h1 : sd.oid ≠ o := h sd (List.mem_cons_self sd rest)
    simp only [updateFirst, if_neg h1]
    rw [ih (fun x hx => h x (List.mem_cons_of_mem sd hx))]
    rfl

/-- `deleteFirst` matches nothing when no document carries the id. -/
theorem deleteFirst_eq_none (l : List StoredDoc) (o : String)
    (h : ∀ sd ∈ l, sd.oid ≠ o) : deleteFirst l o = none := by
  induction l with
  | nil => rfl
  | cons sd rest ih =>
    have h1 : sd.oid ≠ o := h sd (List.mem_cons_self sd rest)
    simp only [deleteFirst, if_neg h1]
    rw [ih (fun x hx => h x (List.mem_cons_of_mem sd hx))]
    rfl

/-- With unique ids, `updateFirst` rewrites exactly the stored document
carrying the id and leaves every other document in place. -/
theorem updateFirst_of_mem (l : List StoredDoc) (o : String) (b : Doc)
    (r : StoredDoc) (hnd : (l.map StoredDoc.oid).Nodup) (hmem : r ∈ l)
    (hoid : r.oid = o) :
    ∃ p q, l = p ++ r :: q ∧ (∀ sd ∈ p, sd.oid ≠ o) ∧
      updateFirst l o b = some (p ++ ⟨o, applySet r.fields b⟩ :: q) := by
  induction l with
  | nil => exact absurd hmem (List.not_mem_nil r)
  | cons sd rest ih =>
    rw [List.map_cons, List.nodup_cons] at hnd
    by_cases hso : sd.oid = o
    · have hr : r = sd := by
        rcases List.mem_cons.1 hmem with h | h
        · exact h
        · exfalso
          apply hnd.1
          have hm : r.oid ∈ rest.map StoredDoc.oid :=
            List.mem_map_of_mem StoredDoc.oid h
          rwa [hoid, ← hso] at hm
      subst hr
      refine ⟨[], rest, rfl, by simp, ?_⟩
      simp [updateFirst, hso]
    · have hr : r ∈ rest := by
        rcases List.mem_cons.1 hmem with h | h
        · rw [h] at hoid; exact absurd hoid hso
        · exact h
      rcases ih hnd.2 hr with ⟨p, q, hl, hp, hu⟩
      refine ⟨sd :: p, q, by rw [List.cons_append, hl], ?_, ?_⟩
      · intro x hx
        rcases List.mem_cons.1 hx with h | h
        · exact h ▸ hso
        · exact hp x h
      · simp only [updateFirst, if_neg hso, hu, Option.map_some]
        rfl

/-- With unique ids, `deleteFirst` removes exactly the stored document
carrying the id, leaves every other document in place, and no document of
the result carries the id. -/
theorem deleteFirst_of_mem (l : List StoredDoc) (o : String)
    (r : StoredDoc) (hnd : (l.map StoredDoc.oid).Nodup) (hmem : r ∈ l)
    (hoid : r.oid = o) :
    ∃ p q, l = p ++ r :: q ∧ deleteFirst l o = some (p ++ q) ∧
      ∀ sd ∈ p ++ q, sd.oid ≠ o := by
  induction l with
  | nil => exact absurd hmem (List.not_mem_nil r)
  | cons sd rest ih =>
    rw [List.map_cons, List.nodup_cons] at hnd
    by_cases hso : sd.oid = o
    · have hr : r = sd := by
        rcases List.mem_cons.1 hmem with h | h
        · exact h
        · exfalso
          apply hnd.1
          have hm : r.oid ∈ rest.map StoredDoc.oid :=
            List.mem_map_of_mem StoredDoc.oid h
          rwa [hoid, ← hso] at hm
      subst hr
      refine ⟨[], rest, rfl, by simp [deleteFirst, hso], ?_⟩
      intro x hx hxo
      apply hnd.1
      have hm : x.oid ∈ rest.map StoredDoc.oid :=
        List.mem_map_of_mem StoredDoc.oid (by simpa using hx)
      rwa [hxo, ← hso] at hm
    · have hr : r ∈ rest := by
        rcases List.mem_cons.1 hmem with h | h
        · rw [h] at hoid; exact absurd hoid hso
        · exact h
      rcases ih hnd.2 hr with ⟨p, q, hl, hd, hq⟩
      refine ⟨sd :: p, q, by rw [List.cons_append, hl], ?_, ?_⟩
      · simp only [deleteFirst, if_neg hso, hd, Option.map_some]
        rfl
      · intro x hx
        rcases List.mem_cons.1 hx with h | h
        · exact h ▸ hso
        · exact hq x h

/-- A field not named by the `$set` body is unchanged by `applySet`. -/
theorem getField_applySet_not_mem (b : Doc) (d : Doc) (k : String)
    (h : k ∉ b.map Prod.fst) : getField (applySet d b) k = getField d k := by
  induction b generalizing d with
  | nil => rfl
  | cons kv rest ih =>
    rw [List.map_cons] at h
    have h1 : k ≠ kv.1 := fun hc => h (hc ▸ List.mem_cons_self _ _)
    have h2 : k ∉ rest.map Prod.fst := fun hc => h (List.mem_cons_of_mem _ hc)
    show getField (applySet (setField d kv.1 kv.2) rest) k = getField d k
    rw [ih (setField d kv.1 kv.2) h2, getField_setField_other _ _ _ _ h1]

/-- With unique body keys, every field of the `$set` body holds its body
value after `applySet`. -/
theorem getField_applySet_mem (b : Doc) (d : Doc) (k : String) (v : JValue)
    (hnd : (b.map Prod.fst).Nodup) (h : getField b k = some v) :
    getField (applySet d b) k = some v := by
  induction b generalizing d with
  | nil => simp [getField] at h
  | cons kv rest ih =>
    rw [List.map_cons, List.nodup_cons] at hnd
    by_cases h1 : kv.1 = k
    · rw [getField, if_pos h1] at h
      injection h with h2
      show getField (applySet (setField d kv.1 kv.2) rest) k = some v
      have hnk : k ∉ rest.map Prod.fst := h1 ▸ hnd.1
      rw [getField_applySet_not_mem rest _ k hnk, h1,
        getField_setField_same, h2]
    · rw [getField, if_neg h1] at h
      show getField (applySet (setField d kv.1 kv.2) rest) k = some v
      exact ih (setField d kv.1 kv.2) hnd.2 h

/-! ## Claims -/

/-- C8: the listening port is taken from the environment
(`process.env.PORT || 5000`, index.js line 59) and defaults to 5000 when
the variable is unset (or empty, the other falsy string), while the
database connection string is the hardcoded local literal of index.js
line 66 and is not read from the environment. -/
theorem claim_C8 :
    port none = Sum.inr 5000 ∧
    (∀ s : String,
      port (some s) = if s = "" then Sum.inr 5000 else Sum.inl s) ∧
    uri = "mongodb://localhost:27017" := by
  refine ⟨rfl, ?_, rfl⟩
  intro s
  by_cases h : s = "" <;> simp [port, h]

/-- C10: the handler of `GET /all-books` tests `req.query?.category` for
truthiness, so an empty-string `category` parameter behaves exactly like an
absent one and the handler returns every stored document. -/
theorem claim_C10 (c : Collection) :
    allBooks c (some "") = allBooks c none ∧ allBooks c none = c.docs := by
  refine ⟨rfl, ?_⟩
  simp [allBooks, findDocs, matchesQuery]

/-- C6: on an id outside the storage layer's expected format, each of
GET/PATCH/DELETE `/book/:id` throws in `new ObjectId(id)` before its
storage operation (an unhandled rejection), and the stored collection is
unchanged by the failed request. -/
theorem claim_C6 (c : Collection) (id : String) (b : Doc)
    (h : parseObjectId id = none) :
    getBook c id = .error .invalidObjectId ∧
    patchBook c id b = .error .invalidObjectId ∧
    deleteBook c id = .error .invalidObjectId ∧
    stateAfter c (patchBook c id b) = c ∧
    stateAfter c (deleteBook c id) = c := by
  simp [getBook, patchBook, deleteBook, stateAfter, h]

/-- Witness for C6 at the malformed id `"not-a-hex-id"` and the one-record
collection `wColl`. -/
theorem claim_C6_witness :
    parseObjectId wBadId = none ∧
    (getBook wColl wBadId = .error .invalidObjectId ∧
     patchBook wColl wBadId [("title", JValue.str "Dune")] =
       .error .invalidObjectId ∧
     deleteBook wColl wBadId = .error .invalidObjectId ∧
     stateAfter wColl (patchBook wColl wBadId [("title", JValue.str "Dune")]) =
       wColl ∧
     stateAfter wColl (deleteBook wColl wBadId) = wColl) :=
  ⟨by decide, claim_C6 wColl wBadId [("title", JValue.str "Dune")] (by decide)⟩

/-- C7: for a well-formed id that matches no stored record,
`GET /book/:id` does not raise: it is a normal success carrying an absent
(null) payload. -/
theorem claim_C7 (c : Collection) (id o : String)
    (hp : parseObjectId id = some o)
    (habs : ∀ sd ∈ c.docs, sd.oid ≠ o) :
    getBook c id = .ok none := by
  simp [getBook, hp, findOne, findFirst_eq_none c.docs o habs]

/-- Witness for C7 at the well-formed id `wOid2`, absent from the
one-record collection `wColl`. -/
theorem claim_C7_witness :
    parseObjectId wOid2 = some wOid2 ∧
    (∀ sd ∈ wColl.docs, sd.oid ≠ wOid2) ∧
    getBook wColl wOid2 = .ok none :=
  ⟨by decide, by decide, claim_C7 wColl wOid2 wOid2 (by decide) (by decide)⟩

/-- C1: creating a record via `POST /upload-book` and fetching it through
`GET /book/:id` with the returned inserted id yields a document whose
fields are exactly the submitted fields — hence a superset of, and equal
on, the fields of the submitted object. -/
theorem claim_C1 (c : Collection) (d : Doc)
    (hfresh : ∀ sd ∈ c.docs, sd.oid ≠ genOid c.nextId) :
    ∃ sd : StoredDoc,
      getBook (uploadBook c d).1 (uploadBook c d).2.insertedId =
        .ok (some sd) ∧
      sd.fields = d ∧
      ∀ k v, getField d k = some v → getField sd.fields k = some v := by
  refine ⟨⟨genOid c.nextId, d⟩, ?_, rfl, fun k v h => h⟩
  show getBook ⟨c.docs ++ [⟨genOid c.nextId, d⟩], c.nextId + 1⟩
      (genOid c.nextId) = .ok (some ⟨genOid c.nextId, d⟩)
  rw [getBook, parseObjectId_genOid]
  show Except.ok (findOne ⟨c.docs ++ [⟨genOid c.nextId, d⟩], c.nextId + 1⟩
      (genOid c.nextId)) = .ok (some ⟨genOid c.nextId, d⟩)
  rw [findOne]
  rw [findFirst_append c.docs ⟨genOid c.nextId, d⟩ (genOid c.nextId) hfresh rfl]

/-- Witness for C1: uploading `{title: "Dune"}` to the one-record
collection `wColl` and reading it back. -/
theorem claim_C1_witness :
    (∀ sd ∈ wColl.docs, sd.oid ≠ genOid wColl.nextId) ∧
    (∃ sd : StoredDoc,
      getBook (uploadBook wColl [("title", JValue.str "Dune")]).1
          (uploadBook wColl [("title", JValue.str "Dune")]).2.insertedId =
        .ok (some sd) ∧
      sd.fields = [("title", JValue.str "Dune")] ∧
      ∀ k v, getField [("title", JValue.str "Dune")] k = some v →
        getField sd.fields k = some v) :=
  ⟨by decide, claim_C1 wColl [("title", JValue.str "Dune")] (by decide)⟩

/-- C4: `PATCH /book/:id` with a well-formed id matching no stored record
is not an error: the upsert creates a record holding at least the body's
field. -/
theorem claim_C4 (c : Collection) (id o f : String) (v : JValue)
    (hp : parseObjectId id = some o)
    (habs : ∀ sd ∈ c.docs, sd.oid ≠ o) :
    ∃ c' res, patchBook c id [(f, v)] = .ok (c', res) ∧
      ∃ sd ∈ c'.docs, getField sd.fields f = some v := by
  refine ⟨⟨c.docs ++ [⟨o, applySet [] [(f, v)]⟩], c.nextId⟩,
    ⟨true, 0, 0, some o⟩, ?_, ⟨o, applySet [] [(f, v)]⟩, ?_, ?_⟩
  · simp only [patchBook, hp]
    rw [show updateOne c o [(f, v)] =
      (⟨c.docs ++ [⟨o, applySet [] [(f, v)]⟩], c.nextId⟩,
        ⟨true, 0, 0, some o⟩) from by
      rw [updateOne, updateFirst_eq_none c.docs o [(f, v)] habs]]
  · exact List.mem_append_right _ (List.mem_singleton.2 rfl)
  · exact getField_setField_same [] f v

/-- Witness for C4: patching the absent id `wOid2` of the one-record
collection `wColl` with `{title: "Dune"}`. -/
theorem claim_C4_witness :
    parseObjectId wOid2 = some wOid2 ∧
    (∀ sd ∈ wColl.docs, sd.oid ≠ wOid2) ∧
    (∃ c' res,
      patchBook wColl wOid2 [("title", JValue.str "Dune")] = .ok (c', res) ∧
      ∃ sd ∈ c'.docs, getField sd.fields "title" = some (JValue.str "Dune")) :=
  ⟨by decide, by decide,
    claim_C4 wColl wOid2 wOid2 "title" (JValue.str "Dune")
      (by decide) (by decide)⟩

/-- C9: an upsert on a well-formed id matching no stored record creates the
document under the very id the caller supplied: a subsequent
`GET /book/:id` with the same id returns a document carrying the body's
fields. -/
theorem claim_C9 (c : Collection) (id o : String) (b : Doc)
    (hp : parseObjectId id = some o)
    (habs : ∀ sd ∈ c.docs, sd.oid ≠ o)
    (hkeys : (b.map Prod.fst).Nodup) :
    ∃ c' res sd, patchBook c id b = .ok (c', res) ∧
      res.upsertedId = some o ∧
      getBook c' id = .ok (some sd) ∧ sd.oid = o ∧
      ∀ k v, getField b k = some v → getField sd.fields k = some v := by
  refine ⟨⟨c.docs ++ [⟨o, applySet [] b⟩], c.nextId⟩, ⟨true, 0, 0, some o⟩,
    ⟨o, applySet [] b⟩, ?_, rfl, ?_, rfl, ?_⟩
  · simp only [patchBook, hp]
    rw [show updateOne c o b =
      (⟨c.docs ++ [⟨o, applySet [] b⟩], c.nextId⟩, ⟨true, 0, 0, some o⟩) from by
      rw [updateOne, updateFirst_eq_none c.docs o b habs]]
  · simp only [getBook, hp]
    show Except.ok (findOne ⟨c.docs ++ [⟨o, applySet [] b⟩], c.nextId⟩ o) =
      .ok (some ⟨o, applySet [] b⟩)
    rw [findOne, findFirst_append c.docs ⟨o, applySet [] b⟩ o habs rfl]
  · exact fun k v h => getField_applySet_mem b [] k v hkeys h

/-- Witness for C9: upserting `{title: "Dune", price: 9}` at the absent id
`wOid2` of the one-record collection `wColl`, then reading it back. -/
theorem claim_C9_witness :
    parseObjectId wOid2 = some wOid2 ∧
    (∀ sd ∈ wColl.docs, sd.oid ≠ wOid2) ∧
    (([("title", JValue.str "Dune"), ("price", JValue.num 9)].map
      (Prod.fst (α := String) (β := JValue))).Nodup) ∧
    (∃ c' res sd,
      patchBook wColl wOid2
        [("title", JValue.str "Dune"), ("price", JValue.num 9)] =
        .ok (c', res) ∧
      res.upsertedId = some wOid2 ∧
      getBook c' wOid2 = .ok (some sd) ∧ sd.oid = wOid2 ∧
      ∀ k v,
        getField [("title", JValue.str "Dune"), ("price", JValue.num 9)] k =
          some v →
        getField sd.fields k = some v) :=
  ⟨by decide, by decide, by decide,
    claim_C9 wColl wOid2 wOid2
      [("title", JValue.str "Dune"), ("price", JValue.num 9)]
      (by decide) (by decide) (by decide)⟩

/-- C5: `DELETE /book/:id` on a stored id removes the record (count 1), a
subsequent `GET /book/:id` returns an absent result, and repeating the
DELETE succeeds with count 0 instead of raising. -/
theorem claim_C5 (c : Collection) (id : String) (r : StoredDoc)
    (hWF : c.WF) (hmem : r ∈ c.docs) (hp : parseObjectId id = some r.oid) :
    ∃ c', deleteBook c id = .ok (c', ⟨true, 1⟩) ∧
      getBook c' id = .ok none ∧
      deleteBook c' id = .ok (c', ⟨true, 0⟩) := by
  rcases deleteFirst_of_mem c.docs r.oid r hWF hmem rfl with
    ⟨p, q, hl, hd, hnone⟩
  refine ⟨⟨p ++ q, c.nextId⟩, ?_, ?_, ?_⟩
  · simp only [deleteBook, hp, deleteOne, hd]
  · simp only [getBook, hp, findOne]
    rw [show findFirst (p ++ q) r.oid = none from
      findFirst_eq_none _ _ hnone]
  · simp only [deleteBook, hp, deleteOne]
    rw [show deleteFirst (p ++ q) r.oid = none from
      deleteFirst_eq_none _ _ hnone]

/-- Witness for C5: deleting the stored id `wOid` of the one-record
collection `wColl`, reading it back, and deleting it again. -/
theorem claim_C5_witness :
    wColl.WF ∧ (⟨wOid, [("category", JValue.str "x")]⟩ : StoredDoc) ∈
      wColl.docs ∧
    parseObjectId wOid = some wOid ∧
    (∃ c', deleteBook wColl wOid = .ok (c', ⟨true, 1⟩) ∧
      getBook c' wOid = .ok none ∧
      deleteBook c' wOid = .ok (c', ⟨true, 0⟩)) :=
  ⟨(show (wColl.docs.map StoredDoc.oid).Nodup by decide), by decide, by decide,
    claim_C5 wColl wOid ⟨wOid, [("category", JValue.str "x")]⟩
      (show (wColl.docs.map StoredDoc.oid).Nodup by decide)
      (by decide) (by decide)⟩

/-- C3: `PATCH /book/:id` with `{f: v}` on an existing record rewrites only
that record — field `f` now holds `v`, every other field keeps its value,
its id is unchanged — and every other record of the collection is exactly
as before. -/
theorem claim_C3 (c : Collection) (id : String) (r : StoredDoc)
    (f : String) (v : JValue)
    (hWF : c.WF) (hmem : r ∈ c.docs) (hp : parseObjectId id = some r.oid) :
    ∃ p q res, c.docs = p ++ r :: q ∧
      patchBook c id [(f, v)] =
        .ok (⟨p ++ ⟨r.oid, setField r.fields f v⟩ :: q, c.nextId⟩, res) ∧
      getField (setField r.fields f v) f = some v ∧
      ∀ k, k ≠ f → getField (setField r.fields f v) k = getField r.fields k := by
  rcases updateFirst_of_mem c.docs r.oid [(f, v)] r hWF hmem rfl with
    ⟨p, q, hl, hpne, hu⟩
  refine ⟨p, q,
    ⟨true, 1,
      if p ++ ⟨r.oid, setField r.fields f v⟩ :: q = c.docs then 0 else 1,
      none⟩,
    hl, ?_, getField_setField_same r.fields f v,
    fun k hk => getField_setField_other r.fields f k v hk⟩
  simp only [patchBook, hp, updateOne, hu]
  rfl

/-- Witness for C3: patching the stored record of the one-record collection
`wColl` with `{category: "classic"}`. -/
theorem claim_C3_witness :
    wColl.WF ∧ (⟨wOid, [("category", JValue.str "x")]⟩ : StoredDoc) ∈
      wColl.docs ∧
    parseObjectId wOid = some wOid ∧
    (∃ p q res, wColl.docs = p ++ ⟨wOid, [("category", JValue.str "x")]⟩ :: q ∧
      patchBook wColl wOid [("category", JValue.str "classic")] =
        .ok (⟨p ++ ⟨wOid,
          setField [("category", JValue.str "x")] "category"
            (JValue.str "classic")⟩ :: q, wColl.nextId⟩, res) ∧
      getField (setField [("category", JValue.str "x")] "category"
        (JValue.str "classic")) "category" = some (JValue.str "classic") ∧
      ∀ k, k ≠ "category" →
        getField (setField [("category", JValue.str "x")] "category"
          (JValue.str "classic")) k =
        getField [("category", JValue.str "x")] k) :=
  ⟨(show (wColl.docs.map StoredDoc.oid).Nodup by decide), by decide, by decide,
    claim_C3 wColl wOid ⟨wOid, [("category", JValue.str "x")]⟩
      "category" (JValue.str "classic")
      (show (wColl.docs.map StoredDoc.oid).Nodup by decide)
      (by decide) (by decide)⟩

/-- Counterexample to C2 as stated: at `X = ""` the handler's truthiness
test drops the filter, so `GET /all-books?category=` on the one-record
collection `wColl` returns the whole collection instead of exactly the
records whose category field equals the empty string (there are none). -/
theorem claim_C2_counterexample :
    ¬ (allBooks wColl (some "") =
      wColl.docs.filter
        (fun sd => getField sd.fields "category" ==
          some (JValue.str ""))) := by
  decide

/-- C2 (amended): for every NONEMPTY string X, `GET /all-books?category=X`
returns exactly the stored records whose category field equals X under
exact, case-sensitive string comparison, in natural order; with no
category parameter it returns every stored document exactly once.  (At
X = "" the truthiness test makes the handler return every document, see
the counterexample and C10.) -/
theorem claim_C2 (c : Collection) (X : String) (hX : X ≠ "")
    (hWF : c.WF) :
    allBooks c (some X) =
      c.docs.filter
        (fun sd => getField sd.fields "category" ==
          some (JValue.str X)) ∧
    allBooks c none = c.docs ∧
    ∀ sd ∈ c.docs, (allBooks c none).count sd = 1 := by
  have hall : allBooks c none = c.docs := by
    simp [allBooks, findDocs, matchesQuery]
  refine ⟨?_, hall, ?_⟩
  · show findDocs c (if X ≠ "" then [("category", JValue.str X)] else []) = _
    rw [if_pos hX]
    apply List.filter_congr
    intro sd _
    simp [matchesQuery]
  · intro sd hsd
    rw [hall]
    have hnd : c.docs.Nodup := List.Nodup.of_map StoredDoc.oid hWF
    exact List.count_eq_one_of_mem hnd hsd

/-- Witness for C2 (amended) at `X = "x"` on the one-record collection
`wColl`. -/
theorem claim_C2_witness :
    ("x" : String) ≠ "" ∧ wColl.WF ∧
    (allBooks wColl (some "x") =
      wColl.docs.filter
        (fun sd => getField sd.fields "category" ==
          some (JValue.str "x")) ∧
    allBooks wColl none = wColl.docs ∧
    ∀ sd ∈ wColl.docs, (allBooks wColl none).count sd = 1) :=
  ⟨by decide, (show (wColl.docs.map StoredDoc.oid).Nodup by decide),
    claim_C2 wColl "x" (by decide)
      (show (wColl.docs.map StoredDoc.oid).Nodup by decide)⟩
